import Mathlib

/-!
Verification of the analysis-scheduling driver (AnalysisConsumer.cpp) of the
clang static analyzer.  The driver decides which declarations of a translation
unit are analyzed, in which mode (syntax-only vs. path-sensitive), in which
order, and with which inlining policy.

The shallow embedding below translates the scheduling functions of the source
file:
  - shouldSkipFunction, getInliningModeForFunction (top-level re-analysis
    policy over the Visited / VisitedAsTopLevel sets),
  - getFunctionName / getModeForDecl (the mode resolver),
  - HandleCode / RunPathSensitiveChecks / ActionExprEngine (the engine
    invoker; the opaque symbolic-execution engine is represented by the
    events it produces and an oracle for the callees it visits),
  - the reverse-post-order loop of HandleDeclsCallGraph,
  - the snapshot-bounded index loops of HandleTranslationUnit and
    HandleDeclsCallGraph,
  - storeTopLevelDecls / HandleTopLevelDecl / HandleTopLevelDeclInObjCContainer
    (the declaration collector),
  - the RecursiveASTVisitor callbacks VisitDecl, VisitFunctionDecl,
    VisitObjCMethodDecl and VisitBlockDecl,
  - the coverage statistic computed at the end of HandleTranslationUnit.

Declarations are identified by stable natural-number identities (the source
uses pointer identity); the sets Visited and VisitedAsTopLevel are lists of
identities with membership as the set operation.  Instrumentation-only output
(DisplayFunction, timers, MaxCFGSize, statistic counters) is not modelled.
-/

/-- Method families of ObjC methods; only membership in the OMF_init family is
inspected by the driver (getInliningModeForFunction). -/
inductive MethodFamily where
  | OMF_None
  | OMF_init
  | OMF_alloc
  | OMF_copy
  | OMF_retain
  deriving DecidableEq, Repr

/-- Kind of a declaration, a closed tagged variant.  FunctionDecl carries its
optional identifier, whether this declaration is a definition, and whether it
sits in a dependent (template) context; ObjCMethodDecl carries its selector
string, its method family and the definition flag; BlockDecl and other
declarations carry nothing extra. -/
inductive DeclKind where
  | functionDecl (ident : Option String) (isDefinition : Bool) (isDependentContext : Bool)
  | objcMethodDecl (selector : String) (family : MethodFamily) (isDefinition : Bool)
  | blockDecl
  | otherDecl
  deriving DecidableEq, Repr

/-- Expansion source location of a declaration, as queried by getModeForDecl:
validity, membership in the main file, membership in a system header. -/
structure SrcLoc where
  isValid : Bool
  isFromMainFile : Bool
  isInSystemHeader : Bool
  deriving DecidableEq, Repr

/-- A declaration: stable identity, kind tag, body-presence flag and expansion
location. -/
structure Decl where
  declId : Nat
  kind : DeclKind
  hasBody : Bool
  loc : SrcLoc
  deriving DecidableEq, Repr

/-- isa ObjCMethodDecl from the source. -/
def Decl.isObjCMethod (D : Decl) : Bool :=
  match D.kind with
  | DeclKind.objcMethodDecl _ _ _ => true
  | _ => false

/-- AnalysisMode is a typedef for unsigned in the source; AM_None = 0. -/
def AM_None : Nat := 0

/-- The Syntax bit of AnalysisMode (AM_Syntax = 0x1 in the source). -/
def AM_Syn : Nat := 1

/-- The Path bit of AnalysisMode (AM_Path = 0x2 in the source). -/
def AM_Path : Nat := 2

/-- ExprEngine inlining modes. -/
inductive InliningModes where
  | Inline_None
  | Inline_All
  deriving DecidableEq, Repr

/-- Garbage-collection language modes (LangOptions::getGC). -/
inductive GCMode where
  | NonGC
  | GCOnly
  | HybridGC
  deriving DecidableEq, Repr

/-- The subset of AnalyzerOptions read by getModeForDecl: the
specific-function name filter (empty string means no filter) and the
analyze-all flag. -/
structure AnalyzerOpts where
  AnalyzeSpecificFunction : String
  AnalyzeAll : Bool
  deriving DecidableEq, Repr

/-- The engine events the embedding records: a decl-level AST check
(runCheckersOnASTDecl), a body-level AST check (runCheckersOnASTBody), and one
symbolic-execution engine run (Eng.ExecuteWorkList) with its ObjCGCEnabled
flag. -/
inductive Event where
  | astDeclCheck (id : Nat)
  | astBodyCheck (id : Nat)
  | engineRun (id : Nat) (gcEnabled : Bool)
  deriving DecidableEq, Repr

/-- The run context: configuration plus the external collaborators (checker
manager, CFG provider, liveness provider, and the opaque engine represented by
an oracle for the callees a run visits). -/
structure AnalysisCtx where
  opts : AnalyzerOpts
  shouldInlineCall : Bool
  inliningModeAll : Bool
  hasPathSensitiveCheckers : Bool
  gcMode : GCMode
  hasCFG : Nat → Bool
  livenessScales : Nat → Bool
  engineCallees : Nat → Bool → InliningModes → List Nat

/-- Character-wise prefix test, modelling llvm StringRef startswith. -/
def strStartsWith (s pre : String) : Bool :=
  pre.toList.isPrefixOf s.toList

/-- The string the source compares identifiers against in VisitFunctionDecl. -/
def inlineMarker : String := "__inline"

/-- getFunctionName from the source: the selector string for an ObjC method,
the identifier for a function that has one, the empty string otherwise. -/
def getFunctionName (D : Decl) : String :=
  match D.kind with
  | DeclKind.objcMethodDecl sel _ _ => sel
  | DeclKind.functionDecl (some nm) _ _ => nm
  | _ => ""

/-- AnalysisConsumer::getModeForDecl from the source.  AnalysisMode is an
unsigned bit set, so the source expression Mode with the AM_Path bit removed
is the 32-bit mask with 0xFFFFFFFD. -/
def getModeForDecl (Opts : AnalyzerOpts) (D : Decl) (Mode : Nat) : Nat :=
  if Opts.AnalyzeSpecificFunction ≠ "" ∧ getFunctionName D ≠ Opts.AnalyzeSpecificFunction then
    AM_None
  else if Opts.AnalyzeAll = false ∧ D.loc.isFromMainFile = false then
    if D.loc.isValid = false ∨ D.loc.isInSystemHeader = true then AM_None
    else Mode &&& 0xFFFFFFFD
  else Mode

/-- Modelled from the spec: the display name of a declaration, the selector
for methods and the identifier for functions (spec section 4.2, step 1). -/
def displayName (D : Decl) : String :=
  match D.kind with
  | DeclKind.objcMethodDecl sel _ _ => sel
  | DeclKind.functionDecl (some nm) _ _ => nm
  | _ => ""

/-- Modelled from the spec: the Mode Resolver exactly as worded in spec
section 4.2 — name-filter mismatch yields the empty mode; outside the main
file without analyzeAll, an invalid or system-header location yields the empty
mode and any other location yields the requested mode with the Path bit
cleared; otherwise the requested mode unchanged. -/
def modeResolverSpec (Opts : AnalyzerOpts) (D : Decl) (M : Nat) : Nat :=
  if Opts.AnalyzeSpecificFunction ≠ "" ∧ displayName D ≠ Opts.AnalyzeSpecificFunction then 0
  else if Opts.AnalyzeAll = false ∧ D.loc.isFromMainFile = false then
    if D.loc.isValid = false ∨ D.loc.isInSystemHeader = true then 0
    else M - (M &&& AM_Path)
  else M

/-- shouldSkipFunction from the source: skip when the declaration was already
analyzed as a top level entry; never skip ObjC methods otherwise; skip other
declarations that were already visited (for instance while inlined). -/
def shouldSkipFunction (D : Decl) (Visited VisitedAsTopLevel : List Nat) : Bool :=
  if D.declId ∈ VisitedAsTopLevel then true
  else if D.isObjCMethod then false
  else decide (D.declId ∈ Visited)

/-- AnalysisConsumer::getInliningModeForFunction from the source.  When the
declaration was already visited, the source asserts that it is an ObjC method
and disables inlining unless its family is OMF_init; the non-method branch of
the match is therefore unreachable in the source and falls through without
modification. -/
def getInliningModeForFunction (ctx : AnalysisCtx) (D : Decl) (Visited : List Nat) :
    InliningModes :=
  let HowToInline :=
    if ctx.shouldInlineCall then InliningModes.Inline_All else InliningModes.Inline_None
  if D.declId ∈ Visited then
    match D.kind with
    | DeclKind.objcMethodDecl _ fam _ =>
        if fam ≠ MethodFamily.OMF_init then InliningModes.Inline_None else HowToInline
    | _ => HowToInline
  else HowToInline

/-- AnalysisConsumer::ActionExprEngine from the source: require a buildable
CFG, require the relaxed live-variables pre-analysis to scale, then perform
one engine run (Eng.ExecuteWorkList); the visited callees reported by the
engine are recorded only when a callee accumulator was supplied (track). -/
def ActionExprEngine (ctx : AnalysisCtx) (D : Decl) (ObjCGCEnabled : Bool)
    (IMode : InliningModes) (track : Bool) : List Event × List Nat :=
  if ctx.hasCFG D.declId = false then ([], [])
  else if ctx.livenessScales D.declId = false then ([], [])
  else ([Event.engineRun D.declId ObjCGCEnabled],
        if track then ctx.engineCallees D.declId ObjCGCEnabled IMode else [])

/-- AnalysisConsumer::RunPathSensitiveChecks from the source: one engine
action without the collector under NonGC, one with it under GCOnly, and both
in sequence under HybridGC. -/
def RunPathSensitiveChecks (ctx : AnalysisCtx) (D : Decl) (IMode : InliningModes)
    (track : Bool) : List Event × List Nat :=
  match ctx.gcMode with
  | GCMode.NonGC => ActionExprEngine ctx D false IMode track
  | GCMode.GCOnly => ActionExprEngine ctx D true IMode track
  | GCMode.HybridGC =>
      let r1 := ActionExprEngine ctx D false IMode track
      let r2 := ActionExprEngine ctx D true IMode track
      (r1.1 ++ r2.1, r1.2 ++ r2.2)

/-- AnalysisConsumer::HandleCode from the source: return early without any
effect when the declaration has no body or the resolved mode is empty;
otherwise run the body-level AST checks when the Syntax bit survives, and run
the path-sensitive checks when the Path bit survives and at least one
path-sensitive checker is registered. -/
def HandleCode (ctx : AnalysisCtx) (D : Decl) (Mode : Nat)
    (IMode : InliningModes) (track : Bool) : List Event × List Nat :=
  if D.hasBody = false then ([], [])
  else
    let EffMode := getModeForDecl ctx.opts D Mode
    if EffMode = AM_None then ([], [])
    else
      let synEvents : List Event :=
        if EffMode &&& AM_Syn ≠ 0 then [Event.astBodyCheck D.declId] else []
      if EffMode &&& AM_Path ≠ 0 ∧ ctx.hasPathSensitiveCheckers = true then
        let r := RunPathSensitiveChecks ctx D IMode track
        (synEvents ++ r.1, r.2)
      else (synEvents, [])

/-- Recognizer for symbolic-execution engine run events. -/
def isEngineRunEvent : Event → Bool
  | Event.engineRun _ _ => true
  | _ => false

/-- Number of symbolic-execution engine runs recorded in an event list. -/
def engineRunCount (l : List Event) : Nat :=
  (l.filter isEngineRunEvent).length

/-- State threaded through the reverse-post-order loop of
HandleDeclsCallGraph: the Visited and VisitedAsTopLevel sets, the log of
top-level analyses performed (declaration identity and inlining mode passed to
HandleCode), and the accumulated engine events. -/
structure CGState where
  Visited : List Nat
  VisitedAsTopLevel : List Nat
  topLevelRuns : List (Nat × InliningModes)
  events : List Event
  deriving DecidableEq

/-- One iteration of the reverse-post-order loop of HandleDeclsCallGraph:
skip the abstract root node; skip declarations per shouldSkipFunction;
otherwise call HandleCode with AM_Path and the computed inlining mode,
supplying the callee accumulator unless the inlining-mode option is All, then
merge the visited callees into Visited and add the declaration to
VisitedAsTopLevel. -/
def handleCGNode (ctx : AnalysisCtx) (s : CGState) (N : Option Decl) : CGState :=
  match N with
  | none => s
  | some D =>
    if shouldSkipFunction D s.Visited s.VisitedAsTopLevel then s
    else
      let IMode := getInliningModeForFunction ctx D s.Visited
      let r := HandleCode ctx D AM_Path IMode (!ctx.inliningModeAll)
      { Visited := s.Visited ++ r.2,
        VisitedAsTopLevel := s.VisitedAsTopLevel ++ [D.declId],
        topLevelRuns := s.topLevelRuns ++ [(D.declId, IMode)],
        events := s.events ++ r.1 }

/-- The reverse-post-order loop of AnalysisConsumer::HandleDeclsCallGraph over
the node sequence produced by the call-graph traversal (the abstract root is
the node carrying no declaration). -/
def HandleDeclsCallGraph (ctx : AnalysisCtx) (rpo : List (Option Decl)) (s : CGState) :
    CGState :=
  rpo.foldl (handleCGNode ctx) s

/-- AnalysisConsumer::storeTopLevelDecls from the source: skip ObjC method
declarations, append every other declaration of the group to LocalTUDecls in
order. -/
def storeTopLevelDecls (store : List Decl) (DG : List Decl) : List Decl :=
  DG.foldl (fun acc d => if d.isObjCMethod then acc else acc ++ [d]) store

/-- AnalysisConsumer::HandleTopLevelDecl from the source (it returns true in
the source; only the store effect is modelled). -/
def HandleTopLevelDecl (store : List Decl) (DG : List Decl) : List Decl :=
  storeTopLevelDecls store DG

/-- AnalysisConsumer::HandleTopLevelDeclInObjCContainer from the source. -/
def HandleTopLevelDeclInObjCContainer (store : List Decl) (DG : List Decl) : List Decl :=
  storeTopLevelDecls store DG

/-- AnalysisConsumer::VisitDecl from the source: run the decl-level AST
checkers whenever the Syntax bit survives the mode resolver. -/
def VisitDecl (ctx : AnalysisCtx) (RecVisitorMode : Nat) (D : Decl) : List Event :=
  if getModeForDecl ctx.opts D RecVisitorMode &&& AM_Syn ≠ 0 then
    [Event.astDeclCheck D.declId]
  else []

/-- AnalysisConsumer::VisitFunctionDecl from the source: return immediately
when the identifier starts with the __inline marker; otherwise hand a
non-dependent definition to HandleCode with the recursive-visitor mode. -/
def VisitFunctionDecl (ctx : AnalysisCtx) (RecVisitorMode : Nat) (FD : Decl) : List Event :=
  match FD.kind with
  | DeclKind.functionDecl ident isDef isDep =>
      if (match ident with
          | some nm => strStartsWith nm inlineMarker
          | none => false) then []
      else if isDef = true ∧ isDep = false then
        (HandleCode ctx FD RecVisitorMode InliningModes.Inline_None false).1
      else []
  | _ => []

/-- AnalysisConsumer::VisitObjCMethodDecl from the source. -/
def VisitObjCMethodDecl (ctx : AnalysisCtx) (RecVisitorMode : Nat) (MD : Decl) : List Event :=
  match MD.kind with
  | DeclKind.objcMethodDecl _ _ isDef =>
      if isDef = true then (HandleCode ctx MD RecVisitorMode InliningModes.Inline_None false).1
      else []
  | _ => []

/-- AnalysisConsumer::VisitBlockDecl from the source. -/
def VisitBlockDecl (ctx : AnalysisCtx) (RecVisitorMode : Nat) (BD : Decl) : List Event :=
  match BD.kind with
  | DeclKind.blockDecl =>
      if BD.hasBody = true then (HandleCode ctx BD RecVisitorMode InliningModes.Inline_None false).1
      else []
  | _ => []

/-- Visit of one declaration by the recursive visitor: the decl-level callback
followed by the kind-specific callback. -/
def visitOneDecl (ctx : AnalysisCtx) (RecVisitorMode : Nat) (D : Decl) : List Event :=
  VisitDecl ctx RecVisitorMode D ++
  (match D.kind with
   | DeclKind.functionDecl _ _ _ => VisitFunctionDecl ctx RecVisitorMode D
   | DeclKind.objcMethodDecl _ _ _ => VisitObjCMethodDecl ctx RecVisitorMode D
   | DeclKind.blockDecl => VisitBlockDecl ctx RecVisitorMode D
   | DeclKind.otherDecl => [])

/-- The discovery-order syntax pass of HandleTranslationUnit: each stored
declaration is visited independently, in order. -/
def runSyntaxPass (ctx : AnalysisCtx) (RecVisitorMode : Nat) (decls : List Decl) :
    List Event :=
  (decls.map (visitOneDecl ctx RecVisitorMode)).flatten

/-- The index-bounded loop shape shared by HandleTranslationUnit (TraverseDecl
over LocalTUDecls, which may append to LocalTUDecls) and HandleDeclsCallGraph
(CG.addToCallGraph over LocalTUDecls, which may trigger deserialization that
appends to LocalTUDecls): iterate i from the given index while i is below the
snapshot bound, read the store at i, append the growth the processing of that
element causes, and log the processed element.  The fuel argument counts the
remaining iterations (snapshot bound minus current index). -/
def snapshotLoopAux (f : Decl → List Decl) :
    Nat → List Decl → Nat → List Decl → List Decl × List Decl
  | 0, store, _, log => (store, log)
  | Nat.succ fuel, store, i, log =>
      match store[i]? with
      | some d => snapshotLoopAux f fuel (store ++ f d) (i + 1) (log ++ [d])
      | none => (store, log)

/-- The full snapshot-bounded loop, started at index 0 with an empty log, as
in the two source loops bounded by LocalTUDeclsSize. -/
def snapshotIndexLoop (f : Decl → List Decl) (store : List Decl) (snap : Nat) :
    List Decl × List Decl :=
  snapshotLoopAux f snap store 0 []

/-- Modelled from the spec: one Function Summary holds the per-declaration
total and visited basic-block counts (FunctionSummariesTy is declared outside
this file; the spec describes it as per-declaration total/visited counts). -/
structure FunctionSummary where
  totalBasicBlocks : Nat
  totalVisitedBasicBlocks : Nat
  deriving DecidableEq, Repr

/-- Modelled from the spec: FunctionSummariesTy::getTotalNumBasicBlocks, the
sum of the per-declaration total basic-block counts. -/
def getTotalNumBasicBlocks (S : List FunctionSummary) : Nat :=
  (S.map FunctionSummary.totalBasicBlocks).sum

/-- Modelled from the spec: FunctionSummariesTy::getTotalNumVisitedBasicBlocks,
the sum of the per-declaration visited basic-block counts. -/
def getTotalNumVisitedBasicBlocks (S : List FunctionSummary) : Nat :=
  (S.map FunctionSummary.totalVisitedBasicBlocks).sum

/-- The coverage statistic computed at the end of
AnalysisConsumer::HandleTranslationUnit: when the total basic-block count is
positive, the statistic is visited times 100 divided by the total (integer
division); otherwise the statistic is left unset. -/
def PercentReachableBlocksStat (S : List FunctionSummary) : Option Nat :=
  let NumBlocksInAnalyzedFunctions := getTotalNumBasicBlocks S
  if NumBlocksInAnalyzedFunctions > 0 then
    some (getTotalNumVisitedBasicBlocks S * 100 / NumBlocksInAnalyzedFunctions)
  else none

/-!  Concrete scenario for the call-graph pass: free functions a, b, c with
call graph a → b → c, inlining enabled, callee tracking on, path-sensitive
checkers registered, no collector, every CFG buildable and every liveness
pre-analysis scalable; the engine reports b and c as visited callees of the
top-level run of a. -/

/-- A valid main-file location. -/
def mainLoc : SrcLoc :=
  { isValid := true, isFromMainFile := true, isInSystemHeader := false }

/-- Identifier of function a. -/
def nameA : String := "a"

/-- Identifier of function b. -/
def nameB : String := "b"

/-- Identifier of function c. -/
def nameC : String := "c"

/-- Function a, identity 0. -/
def declA : Decl :=
  { declId := 0, kind := DeclKind.functionDecl (some nameA) true false,
    hasBody := true, loc := mainLoc }

/-- Function b, identity 1. -/
def declB : Decl :=
  { declId := 1, kind := DeclKind.functionDecl (some nameB) true false,
    hasBody := true, loc := mainLoc }

/-- Function c, identity 2. -/
def declC : Decl :=
  { declId := 2, kind := DeclKind.functionDecl (some nameC) true false,
    hasBody := true, loc := mainLoc }

/-- The run context of the scenario. -/
def ctxABC : AnalysisCtx :=
  { opts := { AnalyzeSpecificFunction := "", AnalyzeAll := false },
    shouldInlineCall := true,
    inliningModeAll := false,
    hasPathSensitiveCheckers := true,
    gcMode := GCMode.NonGC,
    hasCFG := fun _ => true,
    livenessScales := fun _ => true,
    engineCallees := fun id _ _ => if id = 0 then [1, 2] else [] }

/-- Reverse post order of the call graph a → b → c, root first. -/
def rpoABC : List (Option Decl) :=
  [none, some declA, some declB, some declC]

/-- The empty initial state of the call-graph pass. -/
def cgInit : CGState :=
  { Visited := [], VisitedAsTopLevel := [], topLevelRuns := [], events := [] }

/-- The bookkeeping invariant of the call-graph pass: VisitedAsTopLevel holds
no duplicates, every top-level analysis was recorded in VisitedAsTopLevel, and
no declaration identity was analyzed at top level twice. -/
def CGInv (s : CGState) : Prop :=
  s.VisitedAsTopLevel.Nodup ∧
  (∀ p ∈ s.topLevelRuns, p.1 ∈ s.VisitedAsTopLevel) ∧
  (s.topLevelRuns.map Prod.fst).Nodup

lemma shouldSkipFunction_false_not_top {D : Decl} {V VT : List Nat}
    (h : shouldSkipFunction D V VT = false) : D.declId ∉ VT := by
  intro hmem
  simp [shouldSkipFunction, hmem] at h

lemma handleCGNode_inv (ctx : AnalysisCtx) (s : CGState) (N : Option Decl)
    (h : CGInv s) : CGInv (handleCGNode ctx s N) := by
  obtain ⟨h1, h2, h3⟩ := h
  match N with
  | none => exact ⟨h1, h2, h3⟩
  | some D =>
    by_cases hsk : shouldSkipFunction D s.Visited s.VisitedAsTopLevel
    · simpa [handleCGNode, hsk] using ⟨h1, h2, h3⟩
    · have hnt : D.declId ∉ s.VisitedAsTopLevel :=
        shouldSkipFunction_false_not_top (Bool.eq_false_iff.mpr hsk)
      have hntr : D.declId ∉ s.topLevelRuns.map Prod.fst := by
        intro hmem
        obtain ⟨p, hp, hfst⟩ := List.mem_map.mp hmem
        exact hnt (hfst ▸ h2 p hp)
      refine ⟨?_, ?_, ?_⟩ <;> simp only [handleCGNode, hsk, if_false, Bool.false_eq_true]
      · exact List.nodup_append.mpr
          ⟨h1, List.nodup_singleton _, by simpa [List.disjoint_singleton] using hnt⟩
      · intro p hp
        rcases List.mem_append.mp hp with hl | hr
        · exact List.mem_append_left _ (h2 p hl)
        · simp only [List.mem_singleton] at hr
          subst hr
          exact List.mem_append_right _ (by simp)
      · rw [List.map_append]
        exact List.nodup_append.mpr
          ⟨h3, by simp, by simpa [List.disjoint_singleton] using hntr⟩

lemma handleCGNode_top_mono (ctx : AnalysisCtx) (s : CGState) (N : Option Decl) :
    ∀ x ∈ s.VisitedAsTopLevel, x ∈ (handleCGNode ctx s N).VisitedAsTopLevel := by
  intro x hx
  match N with
  | none => exact hx
  | some D =>
    by_cases hsk : shouldSkipFunction D s.Visited s.VisitedAsTopLevel
    · simpa [handleCGNode, hsk] using hx
    · simp only [handleCGNode, hsk, if_false, Bool.false_eq_true]
      exact List.mem_append_left _ hx

lemma handleDeclsCallGraph_inv (ctx : AnalysisCtx) (rpo : List (Option Decl)) :
    ∀ s : CGState, CGInv s → CGInv (HandleDeclsCallGraph ctx rpo s) := by
  induction rpo with
  | nil => intro s h; exact h
  | cons N tl ih =>
      intro s h
      exact ih (handleCGNode ctx s N) (handleCGNode_inv ctx s N h)

lemma handleDeclsCallGraph_top_mono (ctx : AnalysisCtx) (rpo : List (Option Decl)) :
    ∀ s : CGState, ∀ x ∈ s.VisitedAsTopLevel,
      x ∈ (HandleDeclsCallGraph ctx rpo s).VisitedAsTopLevel := by
  induction rpo with
  | nil => intro s x hx; exact hx
  | cons N tl ih =>
      intro s x hx
      exact ih (handleCGNode ctx s N) x (handleCGNode_top_mono ctx s N x hx)

lemma take_drop_append (l xs : List Decl) (i n : Nat) (h : i + n ≤ l.length) :
    ((l ++ xs).drop i).take n = (l.drop i).take n := by
  have hi : i ≤ l.length := le_trans (Nat.le_add_right i n) h
  rw [List.drop_append_of_le_length hi]
  have hn : n ≤ (l.drop i).length := by
    rw [List.length_drop]
    omega
  rw [List.take_append_of_le_length hn]

lemma snapshotLoopAux_spec (f : Decl → List Decl) :
    ∀ (fuel : Nat) (store : List Decl) (i : Nat) (log : List Decl),
      i + fuel ≤ store.length →
      (snapshotLoopAux f fuel store i log).2 = log ++ (store.drop i).take fuel ∧
      store <+: (snapshotLoopAux f fuel store i log).1 := by
  intro fuel
  induction fuel with
  | zero =>
      intro store i log _
      exact ⟨by simp [snapshotLoopAux], by simp [snapshotLoopAux]⟩
  | succ fuel ih =>
      intro store i log h
      have hi : i < store.length := by omega
      have hget : store[i]? = some store[i] := List.getElem?_eq_getElem hi
      have hlen : i + 1 + fuel ≤ (store ++ f store[i]).length := by
        rw [List.length_append]
        omega
      obtain ⟨ihlog, ihpre⟩ := ih (store ++ f store[i]) (i + 1) (log ++ [store[i]]) hlen
      constructor
      · show (snapshotLoopAux f (fuel + 1) store i log).2 = _
        rw [snapshotLoopAux, hget]
        rw [ihlog, take_drop_append store (f store[i]) (i + 1) fuel (by omega)]
        rw [List.drop_eq_getElem_cons hi, List.take_succ_cons, List.append_assoc,
          List.singleton_append]
      · show store <+: (snapshotLoopAux f (fuel + 1) store i log).1
        rw [snapshotLoopAux, hget]
        exact List.IsPrefix.trans (List.prefix_append store (f store[i])) ihpre

lemma storeTopLevelDecls_eq_filter :
    ∀ (DG store : List Decl),
      storeTopLevelDecls store DG = store ++ DG.filter (fun d => !d.isObjCMethod) := by
  intro DG
  induction DG with
  | nil => intro store; simp [storeTopLevelDecls]
  | cons d tl ih =>
      intro store
      by_cases hm : d.isObjCMethod
      · have : storeTopLevelDecls store (d :: tl) = storeTopLevelDecls store tl := by
          simp [storeTopLevelDecls, hm]
        rw [this, ih, List.filter_cons]
        simp [hm]
      · have hb : d.isObjCMethod = false := Bool.eq_false_iff.mpr hm
        have : storeTopLevelDecls store (d :: tl) = storeTopLevelDecls (store ++ [d]) tl := by
          simp [storeTopLevelDecls, hb]
        rw [this, ih, List.filter_cons]
        simp [hb]

/-- Claim C1: in the path-sensitive interprocedural pass a call-graph node's
declaration D is skipped exactly when D is in VisitedAsTopLevel, or D is not
an ObjC method and D is in Visited; with call graph a→b→c and inlining
enabled, non-method b and c fully explored while inlined into a are not
afterwards scheduled as top-level entries; and every declaration analyzed at
top level is added to VisitedAsTopLevel and never re-added or re-processed
within the run. -/
theorem claim1_interprocedural_skip_policy :
    (∀ (D : Decl) (V VT : List Nat),
        shouldSkipFunction D V VT = true ↔
          (D.declId ∈ VT ∨ (D.isObjCMethod = false ∧ D.declId ∈ V))) ∧
    ((HandleDeclsCallGraph ctxABC rpoABC cgInit).topLevelRuns =
        [(0, InliningModes.Inline_All)] ∧
      (HandleDeclsCallGraph ctxABC rpoABC cgInit).VisitedAsTopLevel = [0]) ∧
    (∀ (ctx : AnalysisCtx) (rpo : List (Option Decl)) (s : CGState),
        CGInv s →
          CGInv (HandleDeclsCallGraph ctx rpo s) ∧
          ∀ x ∈ s.VisitedAsTopLevel,
            x ∈ (HandleDeclsCallGraph ctx rpo s).VisitedAsTopLevel) := by
  refine ⟨?_, ⟨by decide, by decide⟩, ?_⟩
  · intro D V VT
    unfold shouldSkipFunction
    by_cases h1 : D.declId ∈ VT
    · simp [h1]
    · by_cases h2 : D.isObjCMethod
      · simp [h1, h2]
      · simp [h1, h2]
  · intro ctx rpo s hs
    exact ⟨handleDeclsCallGraph_inv ctx rpo s hs, handleDeclsCallGraph_top_mono ctx rpo s⟩

/-- Witness for claim C1: the invariant parts applied to the concrete a→b→c
scenario starting from the empty state. -/
theorem claim1_interprocedural_skip_policy_wit :
    CGInv (HandleDeclsCallGraph ctxABC rpoABC cgInit) :=
  (claim1_interprocedural_skip_policy.2.2 ctxABC rpoABC cgInit
    ⟨by simp [cgInit], by simp [cgInit], by simp [cgInit]⟩).1

/-- Claim C2: with inlining enabled the inlining mode for a top-level run is
Inline_All, except that a declaration already in Visited that is an ObjC
method outside the OMF_init family is re-run with Inline_None; a method of
the OMF_init family keeps full inlining on the re-run. -/
theorem claim2_inlining_mode_for_reanalysis :
    ∀ (ctx : AnalysisCtx) (D : Decl) (V : List Nat),
      ctx.shouldInlineCall = true →
      (D.declId ∉ V → getInliningModeForFunction ctx D V = InliningModes.Inline_All) ∧
      (∀ (sel : String) (fam : MethodFamily) (isDef : Bool),
        D.kind = DeclKind.objcMethodDecl sel fam isDef → D.declId ∈ V →
          getInliningModeForFunction ctx D V =
            if fam = MethodFamily.OMF_init then InliningModes.Inline_All
            else InliningModes.Inline_None) := by
  intro ctx D V hinl
  constructor
  · intro hnv
    simp [getInliningModeForFunction, hnv, hinl]
  · intro sel fam isDef hk hv
    by_cases hf : fam = MethodFamily.OMF_init <;>
      simp [getInliningModeForFunction, hv, hinl, hk, hf]

/-- Witness for claim C2: function b with inlining enabled and an empty
Visited set is analyzed with full inlining. -/
theorem claim2_inlining_mode_for_reanalysis_wit :
    getInliningModeForFunction ctxABC declB [] = InliningModes.Inline_All :=
  (claim2_inlining_mode_for_reanalysis ctxABC declB [] rfl).1 (by simp)

/-- Claim C3: the mode resolver getModeForDecl computes exactly the
spec-described resolution — empty mode on a failing name filter; outside the
main file without analyze-all, empty mode for invalid or system-header
locations and otherwise the requested mode with the Path bit cleared;
otherwise the requested mode unchanged.  Determinism is intrinsic: the
resolver is a pure function.  The requested mode ranges over the AnalysisMode
bit set {AM_None, AM_Syntax, AM_Path, AM_Syntax|AM_Path}, hence below 4. -/
theorem claim3_mode_resolver_refines_spec :
    ∀ (Opts : AnalyzerOpts) (D : Decl) (M : Nat), M < 4 →
      getModeForDecl Opts D M = modeResolverSpec Opts D M := by
  have hname : ∀ D : Decl, displayName D = getFunctionName D := by
    intro D
    unfold displayName getFunctionName
    rfl
  intro Opts D M hM
  unfold getModeForDecl modeResolverSpec
  rw [hname]
  split_ifs <;> first
    | rfl
    | (interval_cases M <;> rfl)

/-- Witness for claim C3: resolving the full Syntax|Path mode for function a
agrees with the spec-side resolver. -/
theorem claim3_mode_resolver_refines_spec_wit :
    getModeForDecl ctxABC.opts declA 3 = modeResolverSpec ctxABC.opts declA 3 :=
  claim3_mode_resolver_refines_spec ctxABC.opts declA 3 (by decide)

/-- Claim C4: an index loop bounded by a snapshot length taken before the
loop begins processes exactly the store's first snapshot-many entries, in
order, each once — growth during iteration neither skips nor duplicates an
entry present at snapshot time, and appended entries (the store only grows:
the initial store is a prefix of the final one) are not picked up by the
in-flight loop. -/
theorem claim4_snapshot_bounded_iteration :
    ∀ (f : Decl → List Decl) (store : List Decl) (snap : Nat),
      snap ≤ store.length →
      (snapshotIndexLoop f store snap).2 = store.take snap ∧
      store <+: (snapshotIndexLoop f store snap).1 := by
  intro f store snap h
  have := snapshotLoopAux_spec f snap store 0 [] (by omega)
  simpa [snapshotIndexLoop] using this

/-- Witness for claim C4: a two-element store with snapshot bound 1. -/
theorem claim4_snapshot_bounded_iteration_wit :
    (snapshotIndexLoop (fun _ => [declC]) [declA, declB] 1).2 = [declA, declB].take 1 ∧
    [declA, declB] <+: (snapshotIndexLoop (fun _ => [declC]) [declA, declB] 1).1 :=
  claim4_snapshot_bounded_iteration (fun _ => [declC]) [declA, declB] 1 (by decide)

/-- Claim C5: the aggregate coverage statistic equals the floor of 100 times
the visited-block sum divided by the total-block sum whenever the total is
positive, and is left unset when the total is zero. -/
theorem claim5_coverage_statistic :
    ∀ S : List FunctionSummary,
      (getTotalNumBasicBlocks S > 0 →
        PercentReachableBlocksStat S =
          some (Nat.floor ((100 * (getTotalNumVisitedBasicBlocks S : ℚ)) /
            (getTotalNumBasicBlocks S : ℚ)))) ∧
      (getTotalNumBasicBlocks S = 0 → PercentReachableBlocksStat S = none) := by
  intro S
  constructor
  · intro h
    have hcast : (100 * (getTotalNumVisitedBasicBlocks S : ℚ)) =
        ((100 * getTotalNumVisitedBasicBlocks S : ℕ) : ℚ) := by
      push_cast
      ring
    simp only [PercentReachableBlocksStat, if_pos h]
    congr 1
    rw [hcast, Nat.floor_div_eq_div, Nat.mul_comm]
  · intro h
    simp [PercentReachableBlocksStat, h]

/-- Witness for claim C5: one summary with 4 blocks of which 3 visited. -/
theorem claim5_coverage_statistic_wit :
    PercentReachableBlocksStat [(⟨4, 3⟩ : FunctionSummary)] =
      some (Nat.floor ((100 * (getTotalNumVisitedBasicBlocks
          [(⟨4, 3⟩ : FunctionSummary)] : ℚ)) /
        (getTotalNumBasicBlocks [(⟨4, 3⟩ : FunctionSummary)] : ℚ))) :=
  (claim5_coverage_statistic [(⟨4, 3⟩ : FunctionSummary)]).1 (by decide)

/-- Claim C6: when no path-sensitive checkers are registered, every
invocation of HandleCode — for any declaration, effective mode, inlining
mode and callee tracking — performs zero symbolic-execution engine runs. -/
theorem claim6_no_path_checkers_no_engine_runs :
    ∀ (ctx : AnalysisCtx) (D : Decl) (Mode : Nat) (IMode : InliningModes) (track : Bool),
      ctx.hasPathSensitiveCheckers = false →
      engineRunCount (HandleCode ctx D Mode IMode track).1 = 0 := by
  intro ctx D Mode IMode track h
  simp only [HandleCode]
  split_ifs with h1 h2 h3 h4 <;>
    simp_all [engineRunCount, isEngineRunEvent]

/-- Witness for claim C6: a context with path-sensitive checkers absent and a
Path-mode request on function a. -/
theorem claim6_no_path_checkers_no_engine_runs_wit :
    engineRunCount
      (HandleCode { ctxABC with hasPathSensitiveCheckers := false } declA AM_Path
        InliningModes.Inline_All true).1 = 0 :=
  claim6_no_path_checkers_no_engine_runs
    { ctxABC with hasPathSensitiveCheckers := false } declA AM_Path
    InliningModes.Inline_All true rfl

/-- Claim C7: for one path-sensitive analysis of a declaration whose CFG is
buildable and whose liveness pre-analysis scales, the engine runs exactly
twice under the hybrid collector assumption and exactly once under each of
the other two assumptions. -/
theorem claim7_engine_runs_per_gc_mode :
    ∀ (ctx : AnalysisCtx) (D : Decl) (IMode : InliningModes) (track : Bool),
      ctx.hasCFG D.declId = true →
      ctx.livenessScales D.declId = true →
      engineRunCount (RunPathSensitiveChecks ctx D IMode track).1 =
        if ctx.gcMode = GCMode.HybridGC then 2 else 1 := by
  intro ctx D IMode track hcfg hlive
  cases hgc : ctx.gcMode <;>
    simp [RunPathSensitiveChecks, ActionExprEngine, hgc, hcfg, hlive,
      engineRunCount, isEngineRunEvent]

/-- Witness for claim C7: the hybrid collector assumption on function a. -/
theorem claim7_engine_runs_per_gc_mode_wit :
    engineRunCount
      (RunPathSensitiveChecks { ctxABC with gcMode := GCMode.HybridGC } declA
        InliningModes.Inline_All true).1 =
      if ({ ctxABC with gcMode := GCMode.HybridGC } : AnalysisCtx).gcMode = GCMode.HybridGC
      then 2 else 1 :=
  claim7_engine_runs_per_gc_mode { ctxABC with gcMode := GCMode.HybridGC } declA
    InliningModes.Inline_All true rfl rfl

/-- Claim C8: each per-declaration skip condition — missing body, empty
resolved mode, no buildable CFG, non-scalable liveness pre-analysis — is an
early return producing no effect for that declaration only (the embedding's
handlers are total functions, so no exception reaches the scheduler), and the
pass decomposes per declaration, so the remaining declarations are processed
unaffected. -/
theorem claim8_per_decl_skips_are_isolated :
    (∀ (ctx : AnalysisCtx) (D : Decl) (Mode : Nat) (IMode : InliningModes) (track : Bool),
        D.hasBody = false → HandleCode ctx D Mode IMode track = ([], [])) ∧
    (∀ (ctx : AnalysisCtx) (D : Decl) (Mode : Nat) (IMode : InliningModes) (track : Bool),
        getModeForDecl ctx.opts D Mode = AM_None →
          HandleCode ctx D Mode IMode track = ([], [])) ∧
    (∀ (ctx : AnalysisCtx) (D : Decl) (gc : Bool) (IMode : InliningModes) (track : Bool),
        ctx.hasCFG D.declId = false → ActionExprEngine ctx D gc IMode track = ([], [])) ∧
    (∀ (ctx : AnalysisCtx) (D : Decl) (gc : Bool) (IMode : InliningModes) (track : Bool),
        ctx.livenessScales D.declId = false →
          ActionExprEngine ctx D gc IMode track = ([], [])) ∧
    (∀ (ctx : AnalysisCtx) (Mode : Nat) (xs : List Decl) (D : Decl) (ys : List Decl),
        runSyntaxPass ctx Mode (xs ++ D :: ys) =
          runSyntaxPass ctx Mode xs ++ visitOneDecl ctx Mode D ++
            runSyntaxPass ctx Mode ys) := by
  refine ⟨?_, ?_, ?_, ?_, ?_⟩
  · intro ctx D Mode IMode track h
    simp [HandleCode, h]
  · intro ctx D Mode IMode track h
    simp only [HandleCode, h]
    split_ifs <;> simp_all
  · intro ctx D gc IMode track h
    simp [ActionExprEngine, h]
  · intro ctx D gc IMode track h
    by_cases hc : ctx.hasCFG D.declId = false <;>
      simp [ActionExprEngine, hc, h]
  · intro ctx Mode xs D ys
    simp [runSyntaxPass]

/-- Witness for claim C8: a declaration without a body yields no effect. -/
theorem claim8_per_decl_skips_are_isolated_wit :
    HandleCode ctxABC
      { declId := 8, kind := DeclKind.functionDecl (some nameB) true false,
        hasBody := false, loc := mainLoc }
      AM_Path InliningModes.Inline_All true = ([], []) :=
  claim8_per_decl_skips_are_isolated.1 ctxABC
    { declId := 8, kind := DeclKind.functionDecl (some nameB) true false,
      hasBody := false, loc := mainLoc }
    AM_Path InliningModes.Inline_All true rfl

/-- Selector of the concrete ObjC method used below. -/
def selInit : String := "init"

/-- A concrete ObjC method declaration with a body, located in the main
file. -/
def declMethodInit : Decl :=
  { declId := 7, kind := DeclKind.objcMethodDecl selInit MethodFamily.OMF_init true,
    hasBody := true, loc := mainLoc }

/-- Counterexample for claim C9: the collector skips an ObjC method on every
delivery.  Delivering the method inside its container and then again after
the container completes leaves the Declaration Store empty — the method
itself is never appended, contrary to the claim that it is appended once its
enclosing container completes. -/
theorem claim9_counterexample_method_never_appended :
    HandleTopLevelDeclInObjCContainer [] [declMethodInit] = [] ∧
    HandleTopLevelDecl (HandleTopLevelDeclInObjCContainer [] [declMethodInit])
      [declMethodInit] = [] := by
  constructor <;> rfl

/-- Claim C9 as amended: for every delivered declaration group the collector
skips every ObjC method declaration (on every delivery — the method is
reached later through its completed container, which is itself appended) and
appends every other declaration to the Declaration Store in discovery order;
collection is a pure total function, performing no analysis and having no
failure mode. -/
theorem claim9_collector_appends_nonmethods :
    ∀ (store DG : List Decl),
      storeTopLevelDecls store DG =
        store ++ DG.filter (fun d => !d.isObjCMethod) :=
  fun store DG => storeTopLevelDecls_eq_filter DG store

/-- Claim C10: a function declaration whose identifier begins with __inline
is returned from the syntax-pass visitor untouched: HandleCode is never
reached, so no structural or path-sensitive analysis happens for it, whatever
its body, definition flag or location. -/
theorem claim10_inline_prefixed_functions_unhandled :
    ∀ (ctx : AnalysisCtx) (Mode : Nat) (FD : Decl) (nm : String)
      (isDef isDep : Bool),
      FD.kind = DeclKind.functionDecl (some nm) isDef isDep →
      strStartsWith nm inlineMarker = true →
      VisitFunctionDecl ctx Mode FD = [] := by
  intro ctx Mode FD nm isDef isDep hk hpre
  unfold VisitFunctionDecl
  rw [hk]
  simp [hpre]

/-- Identifier of the concrete __inline-prefixed function used below. -/
def inlineFnName : String := "__inlineFoo"

/-- A concrete __inline-prefixed function definition with a body in the main
file. -/
def declInlineFn : Decl :=
  { declId := 9, kind := DeclKind.functionDecl (some inlineFnName) true false,
    hasBody := true, loc := mainLoc }

/-- Witness for claim C10: the visitor produces no event for the
__inline-prefixed definition even though it has a body in the main file. -/
theorem claim10_inline_prefixed_functions_unhandled_wit :
    VisitFunctionDecl ctxABC AM_Syn declInlineFn = [] :=
  claim10_inline_prefixed_functions_unhandled ctxABC AM_Syn declInlineFn
    inlineFnName true false rfl (by decide)
